import Mathlib

/-
Verification of the folio-setae-api record transformation and enrichment
pipeline (src/app/main.py) via a shallow embedding in Lean 4.

Modelling conventions:
- Upstream HTTP responses (the source library-services platform) are an
  explicit environment `Env`; each fetch is a lookup in that environment.
  A response carries a numeric status; `raise_for_status` is modelled by
  `raiseForStatus`, failing on statuses of 400 and above.
- Python exceptions are the `PyError` type; fallible code returns
  `Except PyError`.
- JSON dictionaries are structures with `Option` fields where the source
  reads them with `.get` or guards key presence; plain `dict[key]` access on
  a possibly absent key is modelled as a `keyError` failure.
- Python's `re.sub(pattern, repl, s, flags=re.IGNORECASE)` is modelled by
  `pyReSub` for the fragment of patterns the program constructs: a `^`,
  a body of single-character atoms (literal characters and the `.`
  wildcard), and a final `$`, with a backslash-free replacement template.
  Patterns or replacements outside that fragment make `pyReSub` return
  `none` rather than asserting any behaviour.
-/

namespace FolioSetae

/-! ## Python exceptions -/

/-- Python exceptions that the source can raise, named by kind. -/
inductive PyError where
  | upstream (status : Nat)
  | unboundLocal (var : String)
  | nameError (var : String)
  | typeErrorNoneNotIterable
  | valueError (message : String)
  | keyError (key : String)
  | indexError
  | outsideModel
deriving DecidableEq, Repr

/-! ## Normalizer: `_trim_callno_components` string operation

The source normalizes each call-number component with
`re.sub(" +", " ", v).strip()`: every maximal run of space characters
becomes a single space, then outer whitespace is stripped. -/

/-- Whitespace characters stripped by Python's `str.strip()` (ASCII part). -/
def isPySpace (c : Char) : Bool :=
  c = ' ' || c = '\t' || c = '\n' || c = '\x0b' || c = '\x0c' || c = '\r'

/-- Replace every maximal run of spaces by a single space, as
`re.sub(" +", " ", v)` does.  The boolean tracks whether the previous
character was a space (in which case further spaces are dropped). -/
def collapseSpacesAux : Bool → List Char → List Char
  | _, [] => []
  | prevSpace, c :: rest =>
    if c = ' ' then
      if prevSpace then collapseSpacesAux true rest
      else ' ' :: collapseSpacesAux true rest
    else c :: collapseSpacesAux false rest

def collapseSpaces (l : List Char) : List Char := collapseSpacesAux false l

/-- Drop trailing Python whitespace. -/
def stripEnd (l : List Char) : List Char := (l.reverse.dropWhile isPySpace).reverse

/-- Python `str.strip()` on a character list. -/
def pyStripList (l : List Char) : List Char := stripEnd (l.dropWhile isPySpace)

/-- The component normalization `re.sub(" +", " ", v).strip()` of
`_trim_callno_components`, on character lists. -/
def pyNormalizeList (l : List Char) : List Char := pyStripList (collapseSpaces l)

/-- The component normalization on strings. -/
def pyNormalize (s : String) : String := String.mk (pyNormalizeList s.data)

/-! ## Replacement engine: `_reps_to_regex` and `_replace_string` -/

/-- One row of the configured rule table `prefix-suffix.csv`
(columns field, string, replacement). -/
structure ReplacementRule where
  field : String
  string : String
  replacement : String
deriving DecidableEq, Repr

/-- A single-character regex atom: a literal character or the `.` wildcard. -/
inductive ReAtom where
  | lit (c : Char)
  | dot
deriving DecidableEq, Repr

/-- Characters with a special meaning in Python regular expressions. -/
def reMetaChars : List Char :=
  ['.', '^', '$', '*', '+', '?', '\x7b', '\x7d', '[', ']', '\\', '|', '(', ')']

/-- Parse a regex body made of single-character atoms.  Any other regex
construct is outside the modelled fragment and yields `none`. -/
def parseAtoms : List Char → Option (List ReAtom)
  | [] => some []
  | c :: rest =>
    if c = '.' then (parseAtoms rest).map (fun as => ReAtom.dot :: as)
    else if c ∈ reMetaChars then none
    else (parseAtoms rest).map (fun as => ReAtom.lit c :: as)

/-- Atom matching under `re.IGNORECASE` (case folding modelled by
`Char.toLower`); `.` matches any character except a newline. -/
def atomMatches : ReAtom → Char → Bool
  | .lit c, d => c.toLower = d.toLower
  | .dot, d => d ≠ '\n'

/-- Match a list of atoms against a prefix of the input, returning the
unmatched remainder on success. -/
def matchAtomsPrefix : List ReAtom → List Char → Option (List Char)
  | [], rest => some rest
  | _ :: _, [] => none
  | a :: as, c :: cs => if atomMatches a c then matchAtomsPrefix as cs else none

/-- Substitution for an anchored pattern `^atoms$` under IGNORECASE.  Since
`^` (without MULTILINE) only matches at position zero, there is at most one
match; `$` matches at the end of the input or just before a final newline. -/
def subAnchoredIC (atoms : List ReAtom) (repl : String) (input : String) : String :=
  match matchAtomsPrefix atoms input.data with
  | some rest =>
    if rest = [] then repl
    else if rest = ['\n'] then repl ++ "\n"
    else input
  | none => input

/-- Model of `re.sub(pattern, repl, input, flags=re.IGNORECASE)` for the
patterns built by `_reps_to_regex` (shape `^body$`); `none` means the
pattern or replacement template falls outside the modelled fragment. -/
def pyReSub (pattern repl input : String) : Option String :=
  if '\\' ∈ repl.data then none
  else
    match pattern.data with
    | c :: rest =>
      if c = '^' then
        match rest.getLast? with
        | some d =>
          if d = '$' then
            match parseAtoms rest.dropLast with
            | some atoms => some (subAnchoredIC atoms repl input)
            | none => none
          else none
        | none => none
      else none
    | [] => none

/-- Embedding of `_reps_to_regex`: the rules of the given field, in table
order, as (pattern, replacement) pairs with the pattern anchored as
`^string$` by f-string interpolation. -/
def _reps_to_regex (replacements : List ReplacementRule) (field : String) :
    List (String × String) :=
  (replacements.filter (fun rep => rep.field == field)).map
    (fun rep => ("^" ++ rep.string ++ "$", rep.replacement))

/-- Embedding of `_replace_string`: run `re.sub` for each pair in order,
each substitution acting on the result of the previous one. -/
def _replace_string (string : String) : List (String × String) → Option String
  | [] => some string
  | r :: rs =>
    match pyReSub r.1 r.2 string with
    | some s2 => _replace_string s2 rs
    | none => none

/-- Whole-string case-insensitive equality, the comparison the spec's
replacement-rule claim is phrased in. -/
def caseInsensitiveEq (s t : String) : Bool :=
  s.data.map Char.toLower == t.data.map Char.toLower

/-! ## Data model: the JSON records the pipeline reads -/

/-- The dictionary `item["effectiveLocation"]` is set to: id and name. -/
structure LocationRef where
  id : String
  name : String
deriving DecidableEq, Repr

/-- The dictionary under `item["effectiveCallNumberComponents"]`; the
fields named `pfx` and `sfx` stand for the JSON keys "prefix" and
"suffix". -/
structure CallNumberComponents where
  callNumber : Option String
  pfx : Option String
  sfx : Option String
deriving DecidableEq, Repr

/-- An inventory item as read from the item query.  Only the keys the
pipeline touches are modelled; `fund` is the key the fund step may add. -/
structure Item where
  holdingsRecordId : String
  effectiveCallNumberComponents : Option CallNumberComponents
  effectiveLocation : Option LocationRef
  fund : Option String
deriving DecidableEq, Repr

/-- One element of `pol["holdingSummaries"]`. -/
structure HoldingSummary where
  poLineId : String
deriving DecidableEq, Repr

/-- One element of `fund["fundDistribution"]`; the "code" key may be
absent (the source guards it with a containment test). -/
structure FundEntry where
  code : Option String
deriving DecidableEq, Repr

/-- An order line; `fundDistribution` is `none` when the response carries
no "fundDistribution" key. -/
structure OrderLine where
  fundDistribution : Option (List FundEntry)
deriving DecidableEq, Repr

/-- A holdings record.  The source reads `permanentLocationId` and
`instanceId` with `.get` (absent keys give None) and `callNumberTypeId`
with plain indexing (absent key raises KeyError). -/
structure HoldingsRecord where
  permanentLocationId : Option String
  instanceId : Option String
  callNumberTypeId : Option String
deriving DecidableEq, Repr

/-- A location record; `name` read with `.get`. -/
structure Location where
  name : Option String
deriving DecidableEq, Repr

/-- One entry of an instance's "notes" array.  The note text is read with
plain indexing, so an absent "note" key raises KeyError. -/
structure InstanceNote where
  instanceNoteTypeId : String
  note : Option String
deriving DecidableEq, Repr

/-- One element of `instance["publication"]`. -/
structure Publication where
  dateOfPublication : String
deriving DecidableEq, Repr

/-- A bibliographic instance.  `notes` is `none` when the record has no
"notes" key (`instance.get("notes")` then yields None). -/
structure Instance where
  hrid : String
  publication : List Publication
  notes : Option (List InstanceNote)
deriving DecidableEq, Repr

/-- One instance-note-type record from the vocabulary query. -/
structure InstanceNoteType where
  id : String
deriving DecidableEq, Repr

/-- A call-number-type record. -/
structure CallNumberType where
  name : String
deriving DecidableEq, Repr

/-- An upstream HTTP response: a status code plus the parsed body. -/
structure HttpResp (α : Type) where
  status : Nat
  body : α
deriving DecidableEq, Repr

/-- Model of `requests` `raise_for_status`: statuses of 400 and above
raise an HTTPError, otherwise the parsed body is available. -/
def raiseForStatus {α : Type} (r : HttpResp α) : Except PyError α :=
  if r.status ≥ 400 then .error (.upstream r.status) else .ok r.body

/-- The upstream world for one request: the body (and status where the
source checks it) of every outbound fetch, keyed by the id used in the
request URL, plus the configured rule table.  The fetches whose status the
source never checks (item query, holding summary, order line) are modelled
by their parsed bodies alone. -/
structure Env where
  inventoryItems : List Item
  inventoryBody : String
  holdingSummary : String → List HoldingSummary
  orderLine : String → OrderLine
  holdingsRecordResp : String → HttpResp HoldingsRecord
  locationResp : String → HttpResp Location
  instanceNoteTypesResp : HttpResp (List InstanceNoteType)
  instanceResp : String → HttpResp Instance
  callNumberTypeResp : String → HttpResp CallNumberType
  ruleTable : List ReplacementRule

/-! ## Record fetcher helpers -/

/-- Embedding of `_get_holdings_record`: fetch by holdings id, then
`raise_for_status`, then the parsed body. -/
def _get_holdings_record (holdings_id : String) (env : Env) :
    Except PyError HoldingsRecord :=
  raiseForStatus (env.holdingsRecordResp holdings_id)

/-- Embedding of `_retrieve_permanent_location`.  When the holdings record
has no permanent-location id, the source executes
`raise ValueError(f"Holding {holdings_id} missing permanent location")`;
the name `holdings_id` is not defined anywhere in that function (or the
module), so evaluating the f-string raises NameError before the ValueError
is constructed.  Otherwise the location is fetched and its name checked. -/
def _retrieve_permanent_location (holdings_record : HoldingsRecord) (env : Env) :
    Except PyError (String × String × Option String) :=
  let instance_id := holdings_record.instanceId
  match holdings_record.permanentLocationId with
  | none => .error (.nameError "holdings_id")
  | some permanent_location_id =>
    match raiseForStatus (env.locationResp permanent_location_id) with
    | .error e => .error e
    | .ok location =>
      match location.name with
      | none =>
        .error (.valueError ("Location " ++ permanent_location_id ++ " missing Name"))
      | some location_name => .ok (permanent_location_id, location_name, instance_id)

/-- The fund-attachment step of `read_item` (the holding-summary fetch, the
order-line fetch for the first summary, and the loop over the fund
distribution against the `plate_funds` allow-set). -/
def plate_funds : List String := ["p2053", "p2052"]

/-- The body of the `for f in fund["fundDistribution"]` loop: each entry
whose code lies in the allow-set overwrites `item["fund"]` (no break). -/
def fundLoop (item : Item) (dist : List FundEntry) : Item :=
  dist.foldl
    (fun it f =>
      match f.code with
      | some c => if c ∈ plate_funds then { it with fund := some c } else it
      | none => it)
    item

/-- Lines 67-82 of `read_item`: when the holdings id has at least one
holding summary, fetch the order line of the first summary and, when it
carries a fund distribution, run `fundLoop` over it. -/
def fundStep (env : Env) (item : Item) : Item :=
  match env.holdingSummary item.holdingsRecordId with
  | [] => item
  | pol0 :: _ =>
    match (env.orderLine pol0.poLineId).fundDistribution with
    | some dist => fundLoop item dist
    | none => item

/-! ## Normalizer on items: `_trim_callno_components` -/

/-- Per-component action of `_trim_callno_components`: a truthy value
(present and non-empty) is normalized; None and the empty string pass
through unchanged. -/
def trimComponent : Option String → Option String
  | none => none
  | some s => if s = "" then some s else some (pyNormalize s)

/-- Embedding of `_trim_callno_components`: normalize the three components
in place and return the (possibly null) prefix and suffix.  An item with
no "effectiveCallNumberComponents" key yields the `.get` default, an empty
dictionary, so nothing is written and both returns are None. -/
def _trim_callno_components (item : Item) :
    Item × Option String × Option String :=
  match item.effectiveCallNumberComponents with
  | none => (item, none, none)
  | some comps =>
    let callNumber := trimComponent comps.callNumber
    let p := trimComponent comps.pfx
    let s := trimComponent comps.sfx
    ({ item with effectiveCallNumberComponents := some ⟨callNumber, p, s⟩ }, p, s)

/-! ## Vocabulary mapper: the match statement of `_set_callno_type` -/

/-- The eight call-number-type display names with their own case in the
match statement of `_set_callno_type`. -/
def knownCallNumberTypeNames : List String :=
  ["Library of Congress classification", "LC Modified",
   "Dewey Decimal classification", "National Library of Medicine classification",
   "Superintendent of Documents classification", "Shelving control number",
   "Title", "Shelved separately"]

/-- The match statement of `_set_callno_type`: a source display name to the
target (display name, numeric code) pair, cases tried top to bottom with a
catch-all default. -/
def callNumberTypeMapping (name : String) : String × Nat :=
  if name = "Library of Congress classification" then (name, 0)
  else if name = "LC Modified" then ("Library of Congress classification", 0)
  else if name = "Dewey Decimal classification" then (name, 1)
  else if name = "National Library of Medicine classification" then (name, 2)
  else if name = "Superintendent of Documents classification" then (name, 3)
  else if name = "Shelving control number" then (name, 4)
  else if name = "Title" then (name, 5)
  else if name = "Shelved separately" then (name, 6)
  else ("Other scheme", 8)

/-! ## XML documents -/

/-- The generic XML stage output `xml_raw`: either the json2xml
serialization of the enriched item (wrapper "item"), or the error document
built by `E.error(E.message(...))`. -/
inductive RawXml where
  | itemDoc (item : Item)
  | errorDoc (message : String)
deriving DecidableEq, Repr

/-- Byte rendering of the error document, as
`etree.tostring(E.error(E.message(message)))` produces it. -/
def errorDocBytes (message : String) : String :=
  "<error><message>" ++ message ++ "</message></error>"

/-- Modelled from the spec: the structural transform template
`alma-rest-item.xsl` is not under `src/`.  Per the spec it converts the
generic item XML into the target schema's item-record shape, whose fixed
element paths `bib_data/date_of_publication`, `bib_data/mms_id`,
`item_data/public_note` and `holding_data/call_number_type` are then set
by the patch stages.  The document is modelled as the item it was derived
from together with those patchable leaves. -/
structure TransformedDoc where
  source : Item
  date_of_publication : String
  mms_id : String
  public_note : String
  call_number_type_desc : String
  call_number_type_text : String
deriving DecidableEq, Repr

/-- Modelled from the spec: applying the `alma-rest-item.xsl` template to
the generic item document; the patchable leaves start empty and are filled
by the patch stages. -/
def xsltAlmaRestItem (item : Item) : TransformedDoc :=
  ⟨item, "", "", "", "", ""⟩

/-! ## Patch stages -/

/-- Embedding of `_get_collection_name`: resolve the "Collection name"
note-type id, return the empty string when the type is undefined, and
otherwise scan the instance's notes for the first note of that type.
When the instance has no "notes" key, `instance.get("notes")` yields None
and `for note in None` raises TypeError. -/
def _get_collection_name (inst : Instance) (env : Env) :
    Except PyError String :=
  match raiseForStatus env.instanceNoteTypesResp with
  | .error e => .error e
  | .ok noteTypes =>
    match noteTypes with
    | [] => .ok ""
    | t0 :: _ =>
      let collection_note_id := t0.id
      match inst.notes with
      | none => .error .typeErrorNoneNotIterable
      | some notes =>
        match notes.find? (fun n => n.instanceNoteTypeId == collection_note_id) with
        | some n =>
          match n.note with
          | some text => .ok text
          | none => .error (.keyError "note")
        | none => .ok ""

/-- Python str() of an optional id as f-string interpolation renders it
into the request URL (None prints as "None"). -/
def optIdSegment : Option String → String
  | some s => s
  | none => "None"

/-- Embedding of `_instance_xml`: fetch the instance, then set the
date-of-publication (first publication entry; IndexError when the list is
empty), the mms id (instance hrid) and the public note (collection name). -/
def _instance_xml (xml : TransformedDoc) (instance_id : Option String) (env : Env) :
    Except PyError TransformedDoc :=
  match raiseForStatus (env.instanceResp (optIdSegment instance_id)) with
  | .error e => .error e
  | .ok inst =>
    match inst.publication with
    | [] => .error .indexError
    | pub0 :: _ =>
      match _get_collection_name inst env with
      | .error e => .error e
      | .ok note =>
        .ok { xml with
              date_of_publication := pub0.dateOfPublication,
              mms_id := inst.hrid,
              public_note := note }

/-- Embedding of `_set_callno_type`: read the holdings record's
call-number-type id (plain indexing, KeyError when absent), fetch the type,
map its name through the vocabulary mapping, and set the desc attribute and
element text. -/
def _set_callno_type (holdings : HoldingsRecord) (xml : TransformedDoc) (env : Env) :
    Except PyError TransformedDoc :=
  match holdings.callNumberTypeId with
  | none => .error (.keyError "callNumberTypeId")
  | some call_number_uuid =>
    match raiseForStatus (env.callNumberTypeResp call_number_uuid) with
    | .error e => .error e
    | .ok ctype =>
      let nc := callNumberTypeMapping ctype.name
      .ok { xml with
            call_number_type_desc := nc.1,
            call_number_type_text := toString nc.2 }

/-! ## Orchestrator: `read_item` -/

/-- Overwrite `item["effectiveLocation"]` with the id and name of the
permanent location (lines 92-95 of the source). -/
def setEffectiveLocation (item : Item) (locId locName : String) : Item :=
  { item with effectiveLocation := some ⟨locId, locName⟩ }

/-- Write the processed prefix back into the components dictionary
(`item["effectiveCallNumberComponents"]["prefix"] = processed_prefix`).
Only reachable when the components dictionary is present. -/
def setComponentPrefix (item : Item) (processed : String) : Item :=
  match item.effectiveCallNumberComponents with
  | some comps =>
    { item with effectiveCallNumberComponents := some { comps with pfx := some processed } }
  | none => item

/-- Write the processed suffix back into the components dictionary. -/
def setComponentSuffix (item : Item) (processed : String) : Item :=
  match item.effectiveCallNumberComponents with
  | some comps =>
    { item with effectiveCallNumberComponents := some { comps with sfx := some processed } }
  | none => item

/-- The `if prefix:` guard followed by `_replace_string` and the write-back;
Python truthiness means present and non-empty.  `outsideModel` is returned
when a rule pattern lies outside the modelled regex fragment. -/
def replacePrefixStep (item : Item) (p : Option String)
    (regex : List (String × String)) : Except PyError Item :=
  match p with
  | some s =>
    if s = "" then .ok item
    else
      match _replace_string s regex with
      | some processed => .ok (setComponentPrefix item processed)
      | none => .error .outsideModel
  | none => .ok item

/-- The `if suffix:` guard followed by `_replace_string` and the write-back. -/
def replaceSuffixStep (item : Item) (s : Option String)
    (regex : List (String × String)) : Except PyError Item :=
  match s with
  | some str =>
    if str = "" then .ok item
    else
      match _replace_string str regex with
      | some processed => .ok (setComponentSuffix item processed)
      | none => .error .outsideModel
  | none => .ok item

/-- The success path of the try block of `read_item` (lines 67-121): fund
attachment, holdings-record fetch, permanent-location resolution and
effective-location overwrite, component normalization, and (when `replace`)
the rule-table replacements on prefix and suffix.  Returns the enriched
item that `json2xml` serializes, together with the `holdings_record` and
`instance_id` locals used by the transform block. -/
def enrichItem (env : Env) (item0 : Item) (replace : Bool) :
    Except PyError (Item × HoldingsRecord × Option String) :=
  let item1 := fundStep env item0
  match _get_holdings_record item0.holdingsRecordId env with
  | .error e => .error e
  | .ok holdings_record =>
    match _retrieve_permanent_location holdings_record env with
    | .error e => .error e
    | .ok (permanent_location_id, permanent_location, instance_id) =>
      let item2 := setEffectiveLocation item1 permanent_location_id permanent_location
      match _trim_callno_components item2 with
      | (item3, p, s) =>
        if replace then
          let prefix_regex := _reps_to_regex env.ruleTable "prefix"
          let suffix_regex := _reps_to_regex env.ruleTable "suffix"
          match replacePrefixStep item3 p prefix_regex with
          | .error e => .error e
          | .ok item4 =>
            match replaceSuffixStep item4 s suffix_regex with
            | .error e => .error e
            | .ok item5 => .ok (item5, holdings_record, instance_id)
        else .ok (item3, holdings_record, instance_id)

/-- A response of the route handler: the raw JSON passthrough of the item
query, or an `application/xml` body (generic, or transformed and patched). -/
inductive ReadItemResponse where
  | jsonBody (body : String)
  | genericXml (raw : RawXml)
  | transformedXml (doc : TransformedDoc)
deriving DecidableEq, Repr

/-- Embedding of the route handler `read_item`.  `format == "json"` returns
the item query's body untouched.  Otherwise the try block runs; an empty
item collection raises IndexError at `data["items"][0]`, caught to build
the error document — on that path the locals `instance_id` and
`holdings_record` are never assigned, so the transform block (which runs
for the error document too) stops with UnboundLocalError when it passes
`instance_id` to the instance patch. -/
def read_item (env : Env) (barcode : Int) (format : String)
    (replace : Bool) (transform : Bool) : Except PyError ReadItemResponse :=
  if format = "json" then .ok (.jsonBody env.inventoryBody)
  else
    match env.inventoryItems with
    | [] =>
      if transform then .error (.unboundLocal "instance_id")
      else .ok (.genericXml (.errorDoc ("No item found for barcode " ++ toString barcode)))
    | item0 :: _ =>
      match enrichItem env item0 replace with
      | .error e => .error e
      | .ok (item, holdings_record, instance_id) =>
        if transform then
          match _instance_xml (xsltAlmaRestItem item) instance_id env with
          | .error e => .error e
          | .ok result2 =>
            match _set_callno_type holdings_record result2 env with
            | .error e => .error e
            | .ok result3 => .ok (.transformedXml result3)
        else .ok (.genericXml (.itemDoc item))

/-! ## Concrete instances used to evaluate the embedding -/

/-- A minimal item: holdings id only, no components, no location, no fund. -/
def defaultItem : Item := ⟨"H1", none, none, none⟩

/-- A baseline upstream world: empty item collection, no holding
summaries, a well-formed holdings record, a named location, no instance
note types, a one-publication instance, a "Title" call-number type, and an
empty rule table. -/
def defaultEnv : Env where
  inventoryItems := []
  inventoryBody := "itemCollectionBody"
  holdingSummary := fun _ => []
  orderLine := fun _ => ⟨none⟩
  holdingsRecordResp := fun _ => ⟨200, ⟨some "L1", some "I1", some "C1"⟩⟩
  locationResp := fun _ => ⟨200, ⟨some "Stacks"⟩⟩
  instanceNoteTypesResp := ⟨200, []⟩
  instanceResp := fun _ => ⟨200, ⟨"hrid1", [⟨"2001"⟩], some []⟩⟩
  callNumberTypeResp := fun _ => ⟨200, ⟨"Title"⟩⟩
  ruleTable := []

/-- The baseline world with one matching item. -/
def successEnv : Env := { defaultEnv with inventoryItems := [defaultItem] }

/-- A world where the "Collection name" note type is defined upstream. -/
def noteTypeEnv : Env :=
  { defaultEnv with instanceNoteTypesResp := ⟨200, [⟨"NT1"⟩]⟩ }

/-- A world whose location record has no name. -/
def namelessLocationEnv : Env :=
  { defaultEnv with locationResp := fun _ => ⟨200, ⟨none⟩⟩ }

/-- A world with one holding summary whose order line distributes over both
allow-set fund codes, "p2053" first. -/
def twoFundEnv : Env :=
  { defaultEnv with
    holdingSummary := fun _ => [⟨"POL1"⟩],
    orderLine := fun _ => ⟨some [⟨some "p2053"⟩, ⟨some "p2052"⟩]⟩ }

/-- The allow-set codes occurring in a fund distribution, in order. -/
def allowSetMatches (dist : List FundEntry) : List String :=
  dist.filterMap (fun f =>
    match f.code with
    | some c => if c ∈ plate_funds then some c else none
    | none => none)

/-- Having two adjacent spaces somewhere in the list. -/
def hasDoubleSpace (l : List Char) : Prop := [' ', ' '] <:+: l

/-! ## Helper lemmas -/

theorem fundLoop_fund (dist : List FundEntry) (item : Item) :
    (fundLoop item dist).fund = ((allowSetMatches dist).getLast?).or item.fund := by
  induction dist generalizing item with
  | nil => rfl
  | cons f rest ih =>
    have hstep : fundLoop item (f :: rest) =
        fundLoop (match f.code with
          | some c => if c ∈ plate_funds then { item with fund := some c } else item
          | none => item) rest := rfl
    rw [hstep]
    rcases hc : f.code with _ | c
    · simp only [hc]
      rw [ih]
      have : allowSetMatches (f :: rest) = allowSetMatches rest := by
        simp [allowSetMatches, List.filterMap_cons, hc]
      rw [this]
    · simp only [hc]
      by_cases hin : c ∈ plate_funds
      · rw [if_pos hin, ih]
        have : allowSetMatches (f :: rest) = c :: allowSetMatches rest := by
          simp [allowSetMatches, List.filterMap_cons, hc, hin]
        rw [this]
        cases hrest : (allowSetMatches rest).getLast? with
        | none =>
          have hnil : allowSetMatches rest = [] := by
            cases h : allowSetMatches rest with
            | nil => rfl
            | cons x xs => rw [h] at hrest; simp [List.getLast?] at hrest
          simp [hnil, List.getLast?, Option.or]
        | some a =>
          have hne : allowSetMatches rest ≠ [] := by
            intro h; rw [h] at hrest; simp at hrest
          have : (c :: allowSetMatches rest).getLast? = (allowSetMatches rest).getLast? := by
            cases h : allowSetMatches rest with
            | nil => exact absurd h hne
            | cons x xs => simp [List.getLast?_cons_cons]
          rw [this, hrest]
          simp [Option.or]
      · rw [if_neg hin, ih]
        have : allowSetMatches (f :: rest) = allowSetMatches rest := by
          simp [allowSetMatches, List.filterMap_cons, hc, hin]
        rw [this]

theorem fundLoop_setLocation (dist : List FundEntry) (item : Item)
    (x : Option LocationRef) :
    fundLoop { item with effectiveLocation := x } dist =
      { fundLoop item dist with effectiveLocation := x } := by
  induction dist generalizing item with
  | nil => rfl
  | cons f rest ih =>
    have hstep : ∀ (i : Item), fundLoop i (f :: rest) =
        fundLoop (match f.code with
          | some c => if c ∈ plate_funds then { i with fund := some c } else i
          | none => i) rest := fun i => rfl
    rw [hstep, hstep]
    rcases hc : f.code with _ | c
    · simp only [hc]
      exact ih item
    · simp only [hc]
      by_cases hin : c ∈ plate_funds
      · rw [if_pos hin, if_pos hin]
        exact ih { item with fund := some c }
      · rw [if_neg hin, if_neg hin]
        exact ih item

theorem fundStep_setLocation (env : Env) (item : Item) (x : Option LocationRef) :
    fundStep env { item with effectiveLocation := x } =
      { fundStep env item with effectiveLocation := x } := by
  have h1 : fundStep env { item with effectiveLocation := x } =
      (match env.holdingSummary item.holdingsRecordId with
       | [] => ({ item with effectiveLocation := x } : Item)
       | pol0 :: _ =>
         match (env.orderLine pol0.poLineId).fundDistribution with
         | some dist => fundLoop { item with effectiveLocation := x } dist
         | none => { item with effectiveLocation := x }) := rfl
  have h2 : fundStep env item =
      (match env.holdingSummary item.holdingsRecordId with
       | [] => item
       | pol0 :: _ =>
         match (env.orderLine pol0.poLineId).fundDistribution with
         | some dist => fundLoop item dist
         | none => item) := rfl
  rw [h1, h2]
  rcases env.holdingSummary item.holdingsRecordId with _ | ⟨p, ps⟩
  · rfl
  · show (match (env.orderLine p.poLineId).fundDistribution with
        | some dist => fundLoop { item with effectiveLocation := x } dist
        | none => ({ item with effectiveLocation := x } : Item)) =
      { (match (env.orderLine p.poLineId).fundDistribution with
        | some dist => fundLoop item dist
        | none => item) with effectiveLocation := x }
    rcases (env.orderLine p.poLineId).fundDistribution with _ | dist
    · rfl
    · exact fundLoop_setLocation dist item x

theorem trim_preserves_location (item : Item) :
    ((_trim_callno_components item).1).effectiveLocation = item.effectiveLocation := by
  obtain ⟨a, comps, c, d⟩ := item
  cases comps <;> rfl

theorem setComponentPrefix_location (item : Item) (processed : String) :
    (setComponentPrefix item processed).effectiveLocation = item.effectiveLocation := by
  obtain ⟨a, comps, c, d⟩ := item
  cases comps <;> rfl

theorem setComponentSuffix_location (item : Item) (processed : String) :
    (setComponentSuffix item processed).effectiveLocation = item.effectiveLocation := by
  obtain ⟨a, comps, c, d⟩ := item
  cases comps <;> rfl

theorem replacePrefixStep_location (item : Item) (p : Option String)
    (regex : List (String × String)) (j : Item)
    (h : replacePrefixStep item p regex = .ok j) :
    j.effectiveLocation = item.effectiveLocation := by
  rcases p with _ | s
  · injection h with h
    subst h; rfl
  · dsimp only [replacePrefixStep] at h
    by_cases hs : s = ""
    · rw [if_pos hs] at h
      injection h with h
      subst h; rfl
    · rw [if_neg hs] at h
      cases hrep : _replace_string s regex with
      | none => rw [hrep] at h; cases h
      | some processed =>
        rw [hrep] at h
        injection h with h
        subst h
        exact setComponentPrefix_location item processed

theorem replaceSuffixStep_location (item : Item) (s : Option String)
    (regex : List (String × String)) (j : Item)
    (h : replaceSuffixStep item s regex = .ok j) :
    j.effectiveLocation = item.effectiveLocation := by
  rcases s with _ | str
  · injection h with h
    subst h; rfl
  · dsimp only [replaceSuffixStep] at h
    by_cases hs : str = ""
    · rw [if_pos hs] at h
      injection h with h
      subst h; rfl
    · rw [if_neg hs] at h
      cases hrep : _replace_string str regex with
      | none => rw [hrep] at h; cases h
      | some processed =>
        rw [hrep] at h
        injection h with h
        subst h
        exact setComponentSuffix_location item processed

theorem collapseSpacesAux_no_double : ∀ (l : List Char) (b : Bool),
    ¬ hasDoubleSpace (collapseSpacesAux b l) ∧
    (collapseSpacesAux true l).head? ≠ some ' ' := by
  intro l
  induction l with
  | nil =>
    intro b
    refine ⟨?_, ?_⟩
    · cases b <;> simp [collapseSpacesAux, hasDoubleSpace]
    · simp [collapseSpacesAux]
  | cons c rest ih =>
    intro b
    by_cases hc : c = ' '
    · subst hc
      have etrue : collapseSpacesAux true (' ' :: rest) = collapseSpacesAux true rest := by
        simp [collapseSpacesAux]
      have efalse : collapseSpacesAux false (' ' :: rest) =
          ' ' :: collapseSpacesAux true rest := by
        simp [collapseSpacesAux]
      refine ⟨?_, ?_⟩
      · cases b with
        | true =>
          rw [etrue]
          exact (ih true).1
        | false =>
          rw [efalse]
          intro hdbl
          rcases List.infix_cons_iff.1 hdbl with hpre | hinf
          · have h2 : [' '] <+: collapseSpacesAux true rest :=
              (List.cons_prefix_cons.1 hpre).2
            rcases h2 with ⟨t, ht⟩
            have hhd : (collapseSpacesAux true rest).head? = some ' ' := by
              rw [← ht]; rfl
            exact (ih true).2 hhd
          · exact (ih true).1 hinf
      · rw [etrue]
        exact (ih true).2
    · have e : ∀ b' : Bool, collapseSpacesAux b' (c :: rest) =
          c :: collapseSpacesAux false rest := by
        intro b'
        simp [collapseSpacesAux, hc]
      refine ⟨?_, ?_⟩
      · rw [e b]
        intro hdbl
        rcases List.infix_cons_iff.1 hdbl with hpre | hinf
        · exact hc ((List.cons_prefix_cons.1 hpre).1).symm
        · exact (ih false).1 hinf
      · rw [e true]
        simp [hc]

theorem collapse_fixed : ∀ l : List Char,
    (¬ hasDoubleSpace l → collapseSpacesAux false l = l) ∧
    (¬ hasDoubleSpace l → l.head? ≠ some ' ' → collapseSpacesAux true l = l) := by
  intro l
  induction l with
  | nil => exact ⟨fun _ => rfl, fun _ _ => rfl⟩
  | cons c rest ih =>
    have hrest : ¬ hasDoubleSpace (c :: rest) → ¬ hasDoubleSpace rest := by
      intro h hd
      exact h (List.infix_cons_iff.2 (Or.inr hd))
    by_cases hc : c = ' '
    · subst hc
      constructor
      · intro hnd
        have hhead : rest.head? ≠ some ' ' := by
          intro hh
          rcases rest with _ | ⟨r0, rt⟩
          · simp at hh
          · simp only [List.head?_cons, Option.some.injEq] at hh
            subst hh
            exact hnd (List.IsPrefix.isInfix ⟨rt, rfl⟩)
        have hfix : collapseSpacesAux true rest = rest := ih.2 (hrest hnd) hhead
        simp [collapseSpacesAux, hfix]
      · intro _ hh
        exact absurd rfl hh
    · constructor
      · intro hnd
        simp [collapseSpacesAux, hc, ih.1 (hrest hnd)]
      · intro hnd _
        simp [collapseSpacesAux, hc, ih.1 (hrest hnd)]

theorem stripEnd_prefix (l : List Char) : stripEnd l <+: l := by
  have h1 : l.reverse.dropWhile isPySpace <:+ l.reverse := List.dropWhile_suffix isPySpace
  have h2 : (l.reverse.dropWhile isPySpace).reverse <+: l.reverse.reverse :=
    List.reverse_prefix.2 h1
  rw [List.reverse_reverse] at h2
  exact h2

theorem pyStripList_infix (l : List Char) : pyStripList l <:+: l := by
  have h1 : l.dropWhile isPySpace <:+ l := List.dropWhile_suffix isPySpace
  have h2 : stripEnd (l.dropWhile isPySpace) <+: l.dropWhile isPySpace :=
    stripEnd_prefix _
  exact List.IsInfix.trans (List.IsPrefix.isInfix h2) (List.IsSuffix.isInfix h1)

theorem no_double_infix (l m : List Char) (h : l <:+: m)
    (hm : ¬ hasDoubleSpace m) : ¬ hasDoubleSpace l :=
  fun hd => hm (List.IsInfix.trans hd h)

theorem dropWhile_self (p : Char → Bool) (x : List Char) :
    (x.dropWhile p).dropWhile p = x.dropWhile p := by
  cases h : x.dropWhile p with
  | nil => rfl
  | cons c t =>
    have hp : p c = false := by
      have h2 := List.head?_dropWhile_not p x
      rw [h] at h2
      exact h2
    exact List.dropWhile_cons_of_neg (by simp [hp])

theorem stripEnd_self (l : List Char) : stripEnd (stripEnd l) = stripEnd l := by
  unfold stripEnd
  rw [List.reverse_reverse, dropWhile_self]

theorem pyStripList_self (l : List Char) :
    pyStripList (pyStripList l) = pyStripList l := by
  unfold pyStripList
  have hz : (stripEnd (l.dropWhile isPySpace)).dropWhile isPySpace =
      stripEnd (l.dropWhile isPySpace) := by
    cases hse : stripEnd (l.dropWhile isPySpace) with
    | nil => rfl
    | cons c t =>
      have hpre : (c :: t) <+: l.dropWhile isPySpace := by
        rw [← hse]
        exact stripEnd_prefix _
      rcases hpre with ⟨u, hu⟩
      have hp : isPySpace c = false := by
        have h2 := List.head?_dropWhile_not isPySpace l
        rw [← hu] at h2
        exact h2
      exact List.dropWhile_cons_of_neg (by simp [hp])
  rw [hz, stripEnd_self]

theorem collapse_of_normalized (l : List Char) :
    collapseSpaces (pyNormalizeList l) = pyNormalizeList l := by
  have h1 : ¬ hasDoubleSpace (collapseSpaces l) :=
    (collapseSpacesAux_no_double l false).1
  have h2 : pyNormalizeList l <:+: collapseSpaces l := pyStripList_infix _
  have h3 : ¬ hasDoubleSpace (pyNormalizeList l) := no_double_infix _ _ h2 h1
  exact (collapse_fixed (pyNormalizeList l)).1 h3

theorem pyNormalizeList_idem (l : List Char) :
    pyNormalizeList (pyNormalizeList l) = pyNormalizeList l := by
  show pyStripList (collapseSpaces (pyNormalizeList l)) = pyNormalizeList l
  rw [collapse_of_normalized]
  show pyStripList (pyStripList (collapseSpaces l)) = pyNormalizeList l
  rw [pyStripList_self]
  rfl

theorem pyNormalize_idem (s : String) :
    pyNormalize (pyNormalize s) = pyNormalize s :=
  congrArg String.mk (pyNormalizeList_idem s.data)

theorem trimComponent_idem (v : Option String) :
    trimComponent (trimComponent v) = trimComponent v := by
  rcases v with _ | s
  · rfl
  · by_cases hs : s = ""
    · subst hs
      rfl
    · show trimComponent (if s = "" then some s else some (pyNormalize s)) =
        trimComponent (some s)
      rw [if_neg hs]
      show (if pyNormalize s = "" then some (pyNormalize s)
          else some (pyNormalize (pyNormalize s))) = trimComponent (some s)
      by_cases hn : pyNormalize s = ""
      · rw [if_pos hn]
        show some (pyNormalize s) = if s = "" then some s else some (pyNormalize s)
        rw [if_neg hs]
      · rw [if_neg hn, pyNormalize_idem]
        show some (pyNormalize s) = if s = "" then some s else some (pyNormalize s)
        rw [if_neg hs]

theorem trim_callno_idem (item : Item) :
    _trim_callno_components (_trim_callno_components item).1 =
      _trim_callno_components item := by
  obtain ⟨hid, comps, loc, fund⟩ := item
  rcases comps with _ | ⟨cn, p, s⟩
  · rfl
  · show ((⟨hid, some ⟨trimComponent (trimComponent cn), trimComponent (trimComponent p),
        trimComponent (trimComponent s)⟩, loc, fund⟩ : Item),
      trimComponent (trimComponent p), trimComponent (trimComponent s)) =
      ((⟨hid, some ⟨trimComponent cn, trimComponent p, trimComponent s⟩, loc, fund⟩ : Item),
      trimComponent p, trimComponent s)
    simp only [trimComponent_idem]

theorem parseAtoms_literal : ∀ l : List Char, (∀ c ∈ l, c ∉ reMetaChars) →
    parseAtoms l = some (l.map ReAtom.lit) := by
  intro l
  induction l with
  | nil => intro _; rfl
  | cons c rest ih =>
    intro h
    have hc : c ∉ reMetaChars := h c (List.mem_cons_self c rest)
    have hdot : c ≠ '.' := by
      intro e
      exact hc (by rw [e]; decide)
    have hrest := ih (fun d hd => h d (List.mem_cons_of_mem c hd))
    simp only [parseAtoms, if_neg hdot, if_neg hc, hrest, Option.map_some',
      List.map_cons]

theorem matchLits_some : ∀ (ls cs rest : List Char),
    matchAtomsPrefix (ls.map ReAtom.lit) cs = some rest →
    ∃ pre, cs = pre ++ rest ∧ pre.map Char.toLower = ls.map Char.toLower := by
  intro ls
  induction ls with
  | nil =>
    intro cs rest h
    have hcs : cs = rest := by simpa [matchAtomsPrefix] using h
    subst hcs
    exact ⟨[], rfl, rfl⟩
  | cons a as ih =>
    intro cs rest h
    rcases cs with _ | ⟨c, cs'⟩
    · exact absurd h (by simp [matchAtomsPrefix])
    · simp only [List.map_cons, matchAtomsPrefix] at h
      by_cases hm : atomMatches (ReAtom.lit a) c = true
      · rw [if_pos hm] at h
        obtain ⟨pre, hpre, hmap⟩ := ih cs' rest h
        refine ⟨c :: pre, ?_, ?_⟩
        · rw [List.cons_append, ← hpre]
        · have hlow : a.toLower = c.toLower := by simpa [atomMatches] using hm
          simp only [List.map_cons, hmap, hlow]
      · rw [if_neg hm] at h
        exact absurd h (by simp)

theorem matchLits_complete : ∀ ls cs : List Char,
    cs.map Char.toLower = ls.map Char.toLower →
    matchAtomsPrefix (ls.map ReAtom.lit) cs = some [] := by
  intro ls
  induction ls with
  | nil =>
    intro cs h
    have hcs : cs = [] := by simpa using h
    subst hcs
    rfl
  | cons a as ih =>
    intro cs h
    rcases cs with _ | ⟨c, cs'⟩
    · simp at h
    · simp only [List.map_cons, List.cons.injEq] at h
      obtain ⟨h1, h2⟩ := h
      have hm : atomMatches (ReAtom.lit a) c = true := by
        simp [atomMatches, h1]
      simp only [List.map_cons, matchAtomsPrefix, if_pos hm]
      exact ih cs' h2

/-! ## Claim theorems -/

/-- C1: the claim says the error document for an empty item collection is
returned as the response body for all values of replace and transform and
never runs through the template transform; on the code, with transform set
(the default) the error document is fed to the transform block, which stops
with UnboundLocalError on `instance_id`, so the error XML is only the
response when transform is false. -/
theorem read_item_empty_collection_behaviour :
    read_item defaultEnv 36105 "xml" true true = .error (.unboundLocal "instance_id") ∧
    read_item defaultEnv 36105 "xml" true false =
      .ok (.genericXml (.errorDoc "No item found for barcode 36105")) ∧
    read_item defaultEnv 36105 "xml" false false =
      .ok (.genericXml (.errorDoc "No item found for barcode 36105")) ∧
    errorDocBytes "No item found for barcode 36105" =
      "<error><message>No item found for barcode 36105</message></error>" :=
  ⟨rfl, rfl, rfl, rfl⟩

/-- C2 counterexample: a fund distribution whose codes are exactly the
allow-set, "p2053" first; the claim says the item gains the first allow-set
code "p2053", but the loop (which has no break) leaves the last one,
"p2052". -/
theorem fund_attachment_counterexample :
    (fundStep twoFundEnv defaultItem).fund = some "p2052" ∧
    some "p2052" ≠ (some "p2053" : Option String) :=
  ⟨rfl, by decide⟩

/-- C2 amended: for every fetched item whose holdings id has at least one
holding summary and whose order line carries a fund distribution, the item
gains a fund field equal to the LAST fund code in the distribution list
that belongs to the allow-set, and the fund field is left untouched (absent
if initially absent) when no code belongs to the allow-set. -/
theorem fund_attachment_last_allow_set_code (env : Env) (item : Item)
    (p0 : HoldingSummary) (ps : List HoldingSummary) (dist : List FundEntry)
    (hsum : env.holdingSummary item.holdingsRecordId = p0 :: ps)
    (hdist : (env.orderLine p0.poLineId).fundDistribution = some dist) :
    (fundStep env item).fund = ((allowSetMatches dist).getLast?).or item.fund := by
  unfold fundStep
  rw [hsum]
  simp only [hdist]
  exact fundLoop_fund dist item

/-- Witness for the amended C2 theorem at a concrete world: both allow-set
codes occur, so the last one, "p2052", is attached. -/
theorem fund_attachment_last_allow_set_code_witness :
    twoFundEnv.holdingSummary defaultItem.holdingsRecordId = [⟨"POL1"⟩] ∧
    (twoFundEnv.orderLine "POL1").fundDistribution =
      some [⟨some "p2053"⟩, ⟨some "p2052"⟩] ∧
    (fundStep twoFundEnv defaultItem).fund =
      ((allowSetMatches [⟨some "p2053"⟩, ⟨some "p2052"⟩]).getLast?).or defaultItem.fund :=
  ⟨rfl, rfl,
    fund_attachment_last_allow_set_code twoFundEnv defaultItem ⟨"POL1"⟩ []
      [⟨some "p2053"⟩, ⟨some "p2052"⟩] rfl rfl⟩

/-- C3 counterexample: the rule string is spliced into a regular
expression, so the metacharacter dot in rule string "a.c" rewrites input
"abc" to the replacement even though "abc" does not equal "a.c" under
case-insensitive whole-string comparison — the rule is not an exact
whole-string match for arbitrary rule strings. -/
theorem replacement_rule_counterexample :
    _replace_string "abc" (_reps_to_regex [⟨"prefix", "a.c", "XYZ"⟩] "prefix") =
      some "XYZ" ∧
    caseInsensitiveEq "abc" "a.c" = false ∧
    "XYZ" ≠ "abc" :=
  ⟨by decide, by decide, by decide⟩

/-- C3 amended: the rule string is interpreted as a case-insensitive
regular expression anchored at both ends.  For rules whose string contains
no regex metacharacters and whose replacement contains no backslash,
applied to inputs not ending in a newline, the rule rewrites the input to
the replacement exactly when the input equals the rule string as a whole
string under case-insensitive comparison, and leaves the input unchanged
otherwise — in particular when the rule string occurs only as a proper
substring ("ABC" is rewritten by rule "abc", "zABCz" is not). -/
theorem replacement_rule_anchored_case_insensitive :
    (∀ fld s r t : String,
      (∀ c ∈ s.data, c ∉ reMetaChars) →
      '\\' ∉ r.data →
      t.data.getLast? ≠ some '\n' →
      _replace_string t (_reps_to_regex [⟨fld, s, r⟩] fld) =
        some (if caseInsensitiveEq t s then r else t)) ∧
    _replace_string "ABC" (_reps_to_regex [⟨"prefix", "abc", "XYZ"⟩] "prefix") =
      some "XYZ" ∧
    _replace_string "zABCz" (_reps_to_regex [⟨"prefix", "abc", "XYZ"⟩] "prefix") =
      some "zABCz" := by
  refine ⟨?_, by decide, by decide⟩
  intro fld s r t hs hr ht
  have hrx : _reps_to_regex [⟨fld, s, r⟩] fld = [("^" ++ s ++ "$", r)] := by
    simp [_reps_to_regex]
  rw [hrx]
  have hdata : ("^" ++ s ++ "$").data = '^' :: (s.data ++ ['$']) := by
    rw [String.data_append, String.data_append]
    rfl
  have hsub : pyReSub ("^" ++ s ++ "$") r t =
      some (subAnchoredIC (s.data.map ReAtom.lit) r t) := by
    unfold pyReSub
    rw [if_neg hr, hdata]
    dsimp only
    rw [if_pos rfl, List.getLast?_concat]
    dsimp only
    rw [if_pos rfl, List.dropLast_concat, parseAtoms_literal s.data hs]
  have hfin : subAnchoredIC (s.data.map ReAtom.lit) r t =
      if caseInsensitiveEq t s then r else t := by
    cases hci : caseInsensitiveEq t s with
    | true =>
      have heq : t.data.map Char.toLower = s.data.map Char.toLower := by
        simpa [caseInsensitiveEq] using hci
      have hm := matchLits_complete s.data t.data heq
      unfold subAnchoredIC
      rw [hm]
      simp
    | false =>
      unfold subAnchoredIC
      rcases hm : matchAtomsPrefix (s.data.map ReAtom.lit) t.data with _ | rem
      · simp
      · by_cases hrem : rem = []
        · subst hrem
          obtain ⟨pre, hpre, hmap⟩ := matchLits_some s.data t.data [] hm
          rw [List.append_nil] at hpre
          have hci2 : caseInsensitiveEq t s = true := by
            simp [caseInsensitiveEq, hpre, hmap]
          rw [hci2] at hci
          exact Bool.noConfusion hci
        · by_cases hrem2 : rem = ['\n']
          · subst hrem2
            obtain ⟨pre, hpre, hmap⟩ := matchLits_some s.data t.data ['\n'] hm
            have hlast : t.data.getLast? = some '\n' := by
              rw [hpre]
              exact List.getLast?_concat pre
            exact absurd hlast ht
          · dsimp only
            rw [if_neg hrem, if_neg hrem2]
            simp
  show (match pyReSub ("^" ++ s ++ "$") r t with
    | some s2 => _replace_string s2 []
    | none => none) = some (if caseInsensitiveEq t s then r else t)
  rw [hsub]
  show some (subAnchoredIC (s.data.map ReAtom.lit) r t) =
    some (if caseInsensitiveEq t s then r else t)
  rw [hfin]

/-- Witness for the amended C3 theorem at the spec's own example: rule
string "abc" with replacement "XYZ" applied to input "ABC". -/
theorem replacement_rule_anchored_case_insensitive_witness :
    (∀ c ∈ "abc".data, c ∉ reMetaChars) ∧ '\\' ∉ "XYZ".data ∧
    "ABC".data.getLast? ≠ some '\n' ∧
    _replace_string "ABC" (_reps_to_regex [⟨"prefix", "abc", "XYZ"⟩] "prefix") =
      some (if caseInsensitiveEq "ABC" "abc" then "XYZ" else "ABC") :=
  ⟨by decide, by decide, by decide,
    replacement_rule_anchored_case_insensitive.1 "prefix" "abc" "XYZ" "ABC"
      (by decide) (by decide) (by decide)⟩

/-- C4: the claim says the public note is the empty string whenever the
"Collection name" note type is undefined or the instance has no note of
that type, including when the instance carries no notes at all, and that
this is never an error; on the code, an instance with no "notes" key makes
`for note in instance.get("notes")` iterate over None, raising TypeError
(the other branches do return the empty string). -/
theorem collection_name_missing_notes_key :
    _get_collection_name ⟨"hrid1", [⟨"2001"⟩], none⟩ noteTypeEnv =
      .error .typeErrorNoneNotIterable ∧
    _get_collection_name ⟨"hrid1", [⟨"2001"⟩], some []⟩ noteTypeEnv = .ok "" ∧
    _get_collection_name ⟨"hrid1", [⟨"2001"⟩], some [⟨"NT2", some "x"⟩]⟩ noteTypeEnv =
      .ok "" ∧
    _get_collection_name ⟨"hrid1", [⟨"2001"⟩], none⟩ defaultEnv = .ok "" :=
  ⟨rfl, rfl, rfl, rfl⟩

/-- C5: the vocabulary mapping is total and deterministic: each of the
eight known source names maps to its fixed numeric code, "LC Modified" is
re-labeled to "Library of Congress classification" with code 0, and every
unrecognized name maps to ("Other scheme", 8); being a total function,
there is no error path. -/
theorem vocabulary_mapper_total :
    callNumberTypeMapping "Library of Congress classification" =
      ("Library of Congress classification", 0) ∧
    callNumberTypeMapping "LC Modified" = ("Library of Congress classification", 0) ∧
    callNumberTypeMapping "Dewey Decimal classification" =
      ("Dewey Decimal classification", 1) ∧
    callNumberTypeMapping "National Library of Medicine classification" =
      ("National Library of Medicine classification", 2) ∧
    callNumberTypeMapping "Superintendent of Documents classification" =
      ("Superintendent of Documents classification", 3) ∧
    callNumberTypeMapping "Shelving control number" = ("Shelving control number", 4) ∧
    callNumberTypeMapping "Title" = ("Title", 5) ∧
    callNumberTypeMapping "Shelved separately" = ("Shelved separately", 6) ∧
    ∀ name, name ∉ knownCallNumberTypeNames →
      callNumberTypeMapping name = ("Other scheme", 8) := by
  refine ⟨rfl, by decide, by decide, by decide, by decide, by decide, by decide,
    by decide, ?_⟩
  intro name hn
  simp only [knownCallNumberTypeNames, List.mem_cons, List.not_mem_nil, or_false,
    not_or] at hn
  obtain ⟨h1, h2, h3, h4, h5, h6, h7, h8⟩ := hn
  simp only [callNumberTypeMapping, if_neg h1, if_neg h2, if_neg h3, if_neg h4,
    if_neg h5, if_neg h6, if_neg h7, if_neg h8]

/-- Witness for C5's universally quantified default case at the concrete
unknown name "Foo". -/
theorem vocabulary_mapper_total_witness :
    "Foo" ∉ knownCallNumberTypeNames ∧
    callNumberTypeMapping "Foo" = ("Other scheme", 8) :=
  ⟨by decide, vocabulary_mapper_total.2.2.2.2.2.2.2.2 "Foo" (by decide)⟩

/-- C6: when the holdings record lacks a permanent-location id, the
location-fetch step does fail, but with NameError (the raise statement
formats a message referencing the undefined name holdings_id) rather than
the descriptive MissingLocation ValueError; the MissingLocationName branch
and the success branch behave as the claim states. -/
theorem permanent_location_branches :
    _retrieve_permanent_location ⟨none, some "I1", some "C1"⟩ defaultEnv =
      .error (.nameError "holdings_id") ∧
    _retrieve_permanent_location ⟨some "L1", some "I1", some "C1"⟩ namelessLocationEnv =
      .error (.valueError "Location L1 missing Name") ∧
    _retrieve_permanent_location ⟨some "L1", some "I1", some "C1"⟩ defaultEnv =
      .ok ("L1", "Stacks", some "I1") :=
  ⟨rfl, rfl, rfl⟩

/-- C7: the replacement engine applies the rules of a field in table order,
with each substitution operating on the result of the previous one; the
empty rule list is a no-op; rule-table concatenation preserves order for a
field; and overlapping rules are not deduplicated, so the cascade
a to b then b to c sends "a" to "c". -/
theorem replacement_engine_sequencing :
    (∀ s : String, _replace_string s [] = some s) ∧
    (∀ (s : String) (r : String × String) (rs : List (String × String)),
      _replace_string s (r :: rs) =
        (pyReSub r.1 r.2 s).bind (fun t => _replace_string t rs)) ∧
    (∀ (t1 t2 : List ReplacementRule) (f : String),
      _reps_to_regex (t1 ++ t2) f = _reps_to_regex t1 f ++ _reps_to_regex t2 f) ∧
    _replace_string "a"
      (_reps_to_regex [⟨"prefix", "a", "b"⟩, ⟨"prefix", "b", "c"⟩] "prefix") =
      some "c" := by
  refine ⟨fun s => rfl, fun s r rs => ?_, fun t1 t2 f => ?_, by decide⟩
  · cases h : pyReSub r.1 r.2 s with
    | none => simp [_replace_string, h]
    | some v => simp [_replace_string, h]
  · simp [_reps_to_regex, List.filter_append]

/-- C10: the effectiveLocation carried into the record that the XML stage
serializes is exactly the id and name of the holdings record's permanent
location: the enrichment result is insensitive to whatever effectiveLocation
the source platform returned on the item (first conjunct), and on success
the final record's effectiveLocation is the pair returned by the
permanent-location step for the fetched holdings record (second conjunct). -/
theorem effective_location_overwritten :
    (∀ (env : Env) (item0 : Item) (replace : Bool) (x : Option LocationRef),
      enrichItem env { item0 with effectiveLocation := x } replace =
        enrichItem env item0 replace) ∧
    (∀ (env : Env) (item0 : Item) (replace : Bool) (item : Item)
      (hrec : HoldingsRecord) (iid : Option String),
      enrichItem env item0 replace = .ok (item, hrec, iid) →
      ∃ plid plname,
        _retrieve_permanent_location hrec env = .ok (plid, plname, iid) ∧
        item.effectiveLocation = some ⟨plid, plname⟩) := by
  have hspine : ∀ (env : Env) (i0 : Item) (rep : Bool), enrichItem env i0 rep =
      (match _get_holdings_record i0.holdingsRecordId env with
       | .error e => .error e
       | .ok holdings_record =>
         match _retrieve_permanent_location holdings_record env with
         | .error e => .error e
         | .ok (plid, plname, iid0) =>
           match _trim_callno_components
               (setEffectiveLocation (fundStep env i0) plid plname) with
           | (item3, p, s) =>
             if rep then
               match replacePrefixStep item3 p (_reps_to_regex env.ruleTable "prefix") with
               | .error e => .error e
               | .ok item4 =>
                 match replaceSuffixStep item4 s (_reps_to_regex env.ruleTable "suffix") with
                 | .error e => .error e
                 | .ok item5 => .ok (item5, holdings_record, iid0)
             else .ok (item3, holdings_record, iid0)) :=
    fun env i0 rep => rfl
  constructor
  · intro env item0 replace x
    rw [hspine, hspine]
    have hid : ({ item0 with effectiveLocation := x } : Item).holdingsRecordId =
        item0.holdingsRecordId := rfl
    rw [hid, fundStep_setLocation]
    rfl
  · intro env item0 replace item hrec iid h
    rw [hspine] at h
    rcases hg : _get_holdings_record item0.holdingsRecordId env with e | hrec0
    · simp only [hg] at h
      exact Except.noConfusion h
    · simp only [hg] at h
      rcases hret : _retrieve_permanent_location hrec0 env with e | ⟨plid, plname, iid0⟩
      · simp only [hret] at h
        exact Except.noConfusion h
      · simp only [hret] at h
        rcases ht : _trim_callno_components
            (setEffectiveLocation (fundStep env item0) plid plname) with ⟨item3, p, s⟩
        simp only [ht] at h
        have h3loc : item3.effectiveLocation = some ⟨plid, plname⟩ := by
          have := trim_preserves_location
            (setEffectiveLocation (fundStep env item0) plid plname)
          rw [ht] at this
          exact this
        cases replace with
        | false =>
          simp only [Bool.false_eq_true, if_false] at h
          obtain ⟨h1, h2, h3⟩ := by
            simpa only [Except.ok.injEq, Prod.mk.injEq] using h
          subst h1; subst h2; subst h3
          exact ⟨plid, plname, hret, h3loc⟩
        | true =>
          simp only [if_true] at h
          rcases hp : replacePrefixStep item3 p (_reps_to_regex env.ruleTable "prefix")
            with e | item4
          · simp only [hp] at h
            exact Except.noConfusion h
          · simp only [hp] at h
            rcases hsuf : replaceSuffixStep item4 s (_reps_to_regex env.ruleTable "suffix")
              with e | item5
            · simp only [hsuf] at h
              exact Except.noConfusion h
            · simp only [hsuf] at h
              obtain ⟨h1, h2, h3⟩ := by
                simpa only [Except.ok.injEq, Prod.mk.injEq] using h
              subst h1; subst h2; subst h3
              refine ⟨plid, plname, hret, ?_⟩
              rw [replaceSuffixStep_location item4 s _ item5 hsuf,
                replacePrefixStep_location item3 p _ item4 hp]
              exact h3loc

/-- Witness for C10's second conjunct at a concrete world with one item:
the enrichment succeeds and the output record carries the permanent
location's id and name. -/
theorem effective_location_overwritten_witness :
    enrichItem successEnv defaultItem false =
      .ok (⟨"H1", none, some ⟨"L1", "Stacks"⟩, none⟩,
        ⟨some "L1", some "I1", some "C1"⟩, some "I1") ∧
    ∃ plid plname,
      _retrieve_permanent_location ⟨some "L1", some "I1", some "C1"⟩ successEnv =
        .ok (plid, plname, some "I1") ∧
      (⟨"H1", none, some ⟨"L1", "Stacks"⟩, none⟩ : Item).effectiveLocation =
        some ⟨plid, plname⟩ :=
  ⟨rfl, effective_location_overwritten.2 successEnv defaultItem false
    ⟨"H1", none, some ⟨"L1", "Stacks"⟩, none⟩
    ⟨some "L1", some "I1", some "C1"⟩ (some "I1") rfl⟩

/-- C8: the component normalization (collapse runs of spaces to a single
space, strip outer whitespace) is idempotent on every string; the spec's
example normalizes as stated; and applying `_trim_callno_components` to an
already-trimmed item changes nothing. -/
theorem normalizer_idempotent :
    (∀ s : String, pyNormalize (pyNormalize s) = pyNormalize s) ∧
    pyNormalize "  A   B  " = "A B" ∧
    pyNormalize "A B" = "A B" ∧
    (∀ item : Item, _trim_callno_components (_trim_callno_components item).1 =
      _trim_callno_components item) :=
  ⟨pyNormalize_idem, by decide, by decide, trim_callno_idem⟩

/-- C9: format == "json" short-circuits and returns the item query's
response body untouched, whatever the flags and whatever the collection
(empty included) — no enrichment, no error substitution. -/
theorem json_format_short_circuit (env : Env) (barcode : Int)
    (format : String) (replace transform : Bool) (h : format = "json") :
    read_item env barcode format replace transform = .ok (.jsonBody env.inventoryBody) := by
  subst h
  simp [read_item]

/-- Witness for C9 at a concrete world whose item collection is empty. -/
theorem json_format_short_circuit_witness :
    ("json" = "json") ∧ defaultEnv.inventoryItems = [] ∧
    read_item defaultEnv 12345 "json" true true =
      .ok (.jsonBody defaultEnv.inventoryBody) :=
  ⟨rfl, rfl, json_format_short_circuit defaultEnv 12345 "json" true true rfl⟩

end FolioSetae
